import Mathlib

/-!
Shallow embedding of the icypeas language core (parser + lazy evaluator),
translated from the Rust sources:

* `src/model/token_kind.rs`, `src/model/token_value.rs`, `src/model/token.rs`
* `src/model/expression.rs`, `src/model/statement.rs`, `src/model/value.rs`
* `src/error/error.rs`
* `src/parser/precedence.rs`, `src/parser/parser.rs`
* `src/interpreter/environment.rs`, `src/interpreter/mod.rs`

Modelling conventions, uniform over the file:

* Source locations (`Location`, `Located<T>`) and error help strings are
  elided: no claim inspects them, and no evaluation result depends on them.
  Errors are represented by their `ErrorKind` alone.
* `f64` payloads are carried as an uninterpreted `Nat` (the IEEE-754 bit
  pattern): the embedded fragment never computes with floats — `Float`
  values only flow from literal tokens into type-dispatch matches.
* `i128` is modelled as `Int` together with explicit range checks
  (`inI128`); Rust's plain `+`/`-`/`*`/`/`/`%`/unary `-` overflow behaviour
  (a panic under debug assertions) is modelled by the `Outcome.Crash`
  result, distinct from every interpreter `Error`.
* The shared, mutably aliased `Rc<RefCell<Environment>>` frames are
  modelled by a heap: a list of frames addressed by index, with parent
  links as indices; `Rc` cloning is index copying. Frames are only ever
  appended, so a frame's parent index is always smaller than its own,
  which `envGet` uses for termination.
* `Value::BuiltinFunction` is omitted: in the embedded snapshot no code
  path constructs one (`Environment::get` reads only the `identifiers`
  map, never the `builtins` map, and the interpreter never inserts a
  builtin value), so the corresponding `Call` arm is dead code.
* `Statement::Use` is omitted (file-system module loading, out of the
  embedded core); `Statement::Declaration` executes `todo!()`, a panic,
  modelled as `Outcome.Crash`.
* The Rust interpreter is partial (general recursion); every recursive
  interpreter and parser function therefore takes a fuel argument and
  every nested call decrements it.  Fuel exhaustion is the distinguished
  `OutOfFuel` result, never identified with any program behaviour.
-/

/-- Token kinds, from `src/model/token_kind.rs` (`enum TokenKind`). -/
inductive TokenKind where
  | LeftBrace | RightBrace | LeftBracket | RightBracket
  | LeftParenthesis | RightParenthesis
  | Plus | Minus | Star | StarStar | Slash | Percent
  | Ampersand | Caret | Pipe
  | Bang | BangEqual | Equal | EqualEqual
  | Less | LessEqual | Greater | GreaterEqual
  | At | Colon | Comma | Dollar | Dot | Hash
  | Newline | QuestionMark | Semicolon | Underscore
  | If | Then | Elif | Else
  | True | False | Null
  | Identifier | Float | Integer | String | Unknown
deriving DecidableEq, Repr

/-- `TokenKind::is_primary` from `src/model/token_kind.rs`. -/
def TokenKind.isPrimary : TokenKind → Bool
  | .True | .False | .LeftParenthesis | .Null | .Identifier | .Integer | .String => true
  | _ => false

/-- `TokenKind::is_operator` from `src/model/token_kind.rs`. -/
def TokenKind.isOperator : TokenKind → Bool
  | .Ampersand | .Caret | .Pipe | .Plus | .Minus | .Star | .StarStar | .Slash
  | .Percent | .BangEqual | .Equal | .EqualEqual | .Less | .LessEqual
  | .Greater | .GreaterEqual | .At | .Colon | .Hash => true
  | _ => false

/-- `TokenKind::can_start_expression` from `src/model/token_kind.rs`. -/
def TokenKind.canStartExpression : TokenKind → Bool
  | .Identifier | .Bang | .Minus | .LeftParenthesis | .True | .False | .Null
  | .Float | .Integer | .String | .If => true
  | _ => false

/-- Token payloads, from `src/model/token_value.rs` (`enum TokenValue`).
The `f64` of `Float` is carried as its uninterpreted bit pattern. -/
inductive TokenValue where
  | Identifier (s : String)
  | Boolean (b : Bool)
  | Float (bits : Nat)
  | Integer (i : Int)
  | String (s : String)
  | Use (s : String)
  | Unknown (c : Char)
  | None
deriving DecidableEq, Repr

/-- A token, from `src/model/token.rs` (`struct Token`), location elided. -/
structure Token where
  kind : TokenKind
  value : TokenValue
deriving DecidableEq, Repr

/-- `Token::get_identifier_name` from `src/model/token.rs`. -/
def Token.getIdentifierName (t : Token) : Option String :=
  match t.value with
  | .Identifier name => some name
  | _ => none

/-- The expression tree, from `src/model/expression.rs` (`enum Expression`);
node locations elided.  The parser (`src/parser/parser.rs`) builds the same
seven shapes. -/
inductive Expression where
  | Unary (operator : Token) (expression : Expression)
  | Binary (left : Expression) (operator : Token) (right : Expression)
  | Call (function : Expression) (argument : Expression)
  | Identifier (token : Token)
  | If (branches : List (Expression × Expression)) (otherwise : Expression)
  | Lambda (parameter : Token) (body : Expression)
  | Literal (token : Token)

/-- Statements, from `src/model/statement.rs` (`enum Statement`).
`Use` is omitted (file-system module import, outside the embedded core). -/
inductive Statement where
  | Declaration (name : Token) (types : List Token)
  | Definition (name : Token) (parameter : Token) (body : Expression)
  | Expression (expression : Expression)
  | Variable (name : Token) (body : Expression)

/-- Error kinds, from `src/error/error.rs` (`enum ErrorKind`). -/
inductive ErrorKind where
  | DivisionByZero | ExpectedExpression | IncompleteIf | InvalidArguments
  | InvalidIdentifier | InvalidToken | MismatchedTypes
  | MissingClosingParenthesis | MissingParameter | NotANumber | Overflow
  | UndeclaredFunction | UnexpectedEndOfFile | UnexpectedToken
  | UnimplementedFunction | UnsupportedExpression | UnterminatedString
  | UnterminatedUse
deriving DecidableEq, Repr

/-- Binding strength, from `src/parser/precedence.rs` (`enum Precedence`).
`src/parser/parser.rs` additionally uses `Precedence::Prefix` and
`Precedence::Application`, absent from the checked-in `precedence.rs`
(snapshot skew); following the spec's table they are inserted above
`BitwiseAnd`, below the operator-token level `Primary`. -/
inductive Precedence where
  | None | Assignment | Conditional | Comparison | Term | Factor
  | Exponentiation | BitwiseOr | BitwiseXor | BitwiseAnd
  | Prefix | Application | Primary
deriving DecidableEq, Repr

/-- Rank of a precedence level (the derived `Ord` of the Rust enum orders
variants by declaration position). -/
def Precedence.toNat : Precedence → Nat
  | .None => 0 | .Assignment => 1 | .Conditional => 2 | .Comparison => 3
  | .Term => 4 | .Factor => 5 | .Exponentiation => 6 | .BitwiseOr => 7
  | .BitwiseXor => 8 | .BitwiseAnd => 9 | .Prefix => 10 | .Application => 11
  | .Primary => 12

/-- `a <= b` on `Precedence` (the derived `PartialOrd`). -/
def Precedence.ble (a b : Precedence) : Bool :=
  Nat.ble a.toNat b.toNat

/-- `impl From<TokenKind> for Precedence` from `src/parser/precedence.rs`. -/
def Precedence.ofTokenKind : TokenKind → Precedence
  | .Equal => .Assignment
  | .If => .Conditional
  | .BangEqual | .EqualEqual | .Less | .LessEqual | .Greater | .GreaterEqual => .Comparison
  | .Plus | .Minus => .Term
  | .Star | .Slash | .Percent => .Factor
  | .StarStar => .Exponentiation
  | .Pipe => .BitwiseOr
  | .Caret => .BitwiseXor
  | .Ampersand => .BitwiseAnd
  | .At | .Colon | .Hash => .Primary
  | _ => .None

/-- Runtime values, from `src/model/value.rs` (`enum Value`), with
environments as heap indices.  `BuiltinFunction` is omitted: no code path
in the embedded snapshot constructs one. -/
inductive Value where
  | Boolean (b : Bool)
  | Float (bits : Nat)
  | Integer (i : Int)
  | None
  | String (s : String)
  | Function (parameter : Token) (body : Expression) (environment : Nat)
  | Thunk (expression : Expression) (environment : Nat)

/-- Whether a value is a `Thunk`. -/
def Value.isThunk : Value → Bool
  | .Thunk _ _ => true
  | _ => false

/-- Whether a value is a `Function`. -/
def Value.isFunction : Value → Bool
  | .Function _ _ _ => true
  | _ => false

/-- One environment frame, from `src/interpreter/environment.rs`
(`struct Environment`): an identifier map plus an optional parent link
(here: a heap index).  The map is an association list read first-match,
which has the same lookup semantics as `HashMap` under
`insert`-as-cons (`heapSet`). -/
structure Frame where
  identifiers : List (String × Value)
  parent : Option Nat

/-- Recursion worker for `Environment::get`: look up in the frame at
index `i`, else recurse into its parent.  The extra first argument is
recursion fuel, an artifact of the embedding: in every state the
interpreter constructs, a frame's parent index is smaller than its own
index (frames are only appended, with already-existing parents), so the
parent chain from `i` has length at most `i + 1` and `envGet` below
always supplies enough fuel. -/
def envGetAux : Nat → List Frame → String → Nat → Option Value
  | 0, _, _, _ => none
  | fuel + 1, heap, key, i =>
    match heap[i]? with
    | none => none
    | some f =>
      match f.identifiers.lookup key with
      | some v => some v
      | none =>
        match f.parent with
        | none => none
        | some j => envGetAux fuel heap key j

/-- `Environment::get` from `src/interpreter/environment.rs`: walk the
parent chain outward from the frame at index `i`, first match wins. -/
def envGet (heap : List Frame) (key : String) (i : Nat) : Option Value :=
  envGetAux (i + 1) heap key i

/-- `Environment::set` from `src/interpreter/environment.rs`, applied to
the frame at `ref`: insert/overwrite in the local frame only. -/
def heapSet (heap : List Frame) (ref : Nat) (key : String) (v : Value) : List Frame :=
  match heap[ref]? with
  | some f => heap.set ref ⟨(key, v) :: f.identifiers, f.parent⟩
  | none => heap

/-- `Environment::new` / `Environment::with_parent`: allocate a fresh empty
frame (returning the heap extension and the new frame's index). -/
def allocFrame (heap : List Frame) (parent : Option Nat) : List Frame × Nat :=
  (heap ++ [⟨[], parent⟩], heap.length)

/-- Interpreter state: the environment heap, the interpreter's current
environment (`Interpreter::environment` in `src/interpreter/mod.rs`), and
the values printed so far by `Statement::Expression` (the observable
output of `println!("Value({})", ...)`). -/
structure InterpState where
  heap : List Frame
  env : Nat
  output : List Value

/-- Result of one interpreter step.  `Ok`/`Err` mirror Rust's
`Result<Value, Error>` (errors by kind, locations elided); `Crash` models
a Rust panic (debug-assertion integer overflow, `todo!()`); `OutOfFuel` is
the artificial fuel-exhaustion result of the embedding. -/
inductive Outcome where
  | Ok (v : Value)
  | Err (e : ErrorKind)
  | Crash
  | OutOfFuel

/-- Whether an `Outcome` is an interpreter `Error` (of any kind). -/
def Outcome.isErr : Outcome → Bool
  | .Err _ => true
  | _ => false

/-- Sequencing of fallible interpreter steps: Rust's `?` operator on a
`(result, state)` pair — errors, crashes and fuel exhaustion propagate
together with the state they were raised in. -/
def bindOk (r : Outcome × InterpState)
    (f : Value → InterpState → Outcome × InterpState) : Outcome × InterpState :=
  match r with
  | (.Ok v, s) => f v s
  | other => other

/-- Lower bound of `i128`. -/
def i128Min : Int := -(2 ^ 127)

/-- Upper bound of `i128`. -/
def i128Max : Int := 2 ^ 127 - 1

/-- Whether an integer is representable as an `i128`. -/
def inI128 (i : Int) : Bool := decide (i128Min ≤ i ∧ i ≤ i128Max)

/-- Upper bound of `u32` (`u32::try_from` on an `i128` succeeds exactly on
`0 ..= u32Max`). -/
def u32Max : Int := 4294967295

/-- `i128::checked_pow`: `some` exactly when the mathematical power is
representable.  (Rust computes by repeated squaring with `checked_mul`,
but for `|base| ≤ 1` no step overflows, and for `|base| ≥ 2` every
intermediate `base^(2^k)`/`acc = base^j` with `j < exp` has magnitude at
most `|base^exp| / 2`, so an intermediate overflow occurs iff the result
is out of range.) -/
def checkedPow (l : Int) (e : Nat) : Option Int :=
  if inI128 (l ^ e) then some (l ^ e) else none

/-- Whether `Interpreter::evaluate` has a dedicated arm for this binary
operator token (`src/interpreter/mod.rs`, `Expression::Binary` match);
any other operator kind falls to the `UnsupportedExpression` arm before
the operands are evaluated. -/
def isSupportedBinary : TokenKind → Bool
  | .Plus | .Minus | .Star | .StarStar | .Slash | .Percent
  | .Ampersand | .Pipe | .Caret
  | .BangEqual | .EqualEqual
  | .Greater | .GreaterEqual | .Less | .LessEqual => true
  | _ => false

/-- The binary-operator dispatch of `Interpreter::evaluate`
(`src/interpreter/mod.rs`, `Expression::Binary` arms), applied to the two
already-forced operand values.  Plain Rust `+`/`-`/`*`/`/`/`%` on `i128`
is overflow-checked only by the debug-assertion panic, modelled as
`Crash`; `**` uses `u32::try_from` and `checked_pow` as in the source. -/
def applyBinary (op : TokenKind) (l r : Value) : Outcome :=
  match op, l, r with
  | .Plus, .Integer a, .Integer b =>
    if inI128 (a + b) then .Ok (.Integer (a + b)) else .Crash
  | .Plus, .String a, .String b => .Ok (.String (a ++ b))
  | .Plus, _, _ => .Err .InvalidArguments
  | .Minus, .Integer a, .Integer b =>
    if inI128 (a - b) then .Ok (.Integer (a - b)) else .Crash
  | .Minus, _, _ => .Err .InvalidArguments
  | .Star, .Integer a, .Integer b =>
    if inI128 (a * b) then .Ok (.Integer (a * b)) else .Crash
  | .Star, _, _ => .Err .InvalidArguments
  | .StarStar, .Integer a, .Integer b =>
    if 0 ≤ b ∧ b ≤ u32Max then
      match checkedPow a b.toNat with
      | some p => .Ok (.Integer p)
      | none => .Err .Overflow
    else if 0 ≤ a ∧ a ≤ 1 then .Ok (.Integer a)
    else if 0 < b then .Err .Overflow
    else .Err .InvalidArguments
  | .StarStar, _, _ => .Err .InvalidArguments
  | .Slash, .Integer a, .Integer b =>
    if b = 0 then .Err .DivisionByZero
    else if a = i128Min ∧ b = -1 then .Crash
    else .Ok (.Integer (a.tdiv b))
  | .Slash, _, _ => .Err .InvalidArguments
  | .Percent, .Integer a, .Integer b =>
    if b = 0 then .Err .DivisionByZero
    else if a = i128Min ∧ b = -1 then .Crash
    else .Ok (.Integer (a.tmod b))
  | .Percent, _, _ => .Err .InvalidArguments
  | .Ampersand, .Integer a, .Integer b => .Ok (.Integer (Int.land a b))
  | .Ampersand, .Boolean a, .Boolean b => .Ok (.Boolean (a && b))
  | .Ampersand, _, _ => .Err .InvalidArguments
  | .Pipe, .Integer a, .Integer b => .Ok (.Integer (Int.lor a b))
  | .Pipe, .Boolean a, .Boolean b => .Ok (.Boolean (a || b))
  | .Pipe, _, _ => .Err .InvalidArguments
  | .Caret, .Integer a, .Integer b => .Ok (.Integer (Int.xor a b))
  | .Caret, .Boolean a, .Boolean b => .Ok (.Boolean (xor a b))
  | .Caret, _, _ => .Err .InvalidArguments
  | .BangEqual, .Integer a, .Integer b => .Ok (.Boolean (decide (a ≠ b)))
  | .BangEqual, .Boolean a, .Boolean b => .Ok (.Boolean (decide (a ≠ b)))
  | .BangEqual, _, _ => .Err .InvalidArguments
  | .EqualEqual, .Integer a, .Integer b => .Ok (.Boolean (decide (a = b)))
  | .EqualEqual, .Boolean a, .Boolean b => .Ok (.Boolean (decide (a = b)))
  | .EqualEqual, _, _ => .Err .InvalidArguments
  | .Greater, .Integer a, .Integer b => .Ok (.Boolean (decide (a > b)))
  | .Greater, .Boolean a, .Boolean b => .Ok (.Boolean (a && !b))
  | .Greater, _, _ => .Err .InvalidArguments
  | .GreaterEqual, .Integer a, .Integer b => .Ok (.Boolean (decide (a ≥ b)))
  | .GreaterEqual, .Boolean a, .Boolean b => .Ok (.Boolean (a || !b))
  | .GreaterEqual, _, _ => .Err .InvalidArguments
  | .Less, .Integer a, .Integer b => .Ok (.Boolean (decide (a < b)))
  | .Less, .Boolean a, .Boolean b => .Ok (.Boolean (!a && b))
  | .Less, _, _ => .Err .InvalidArguments
  | .LessEqual, .Integer a, .Integer b => .Ok (.Boolean (decide (a ≤ b)))
  | .LessEqual, .Boolean a, .Boolean b => .Ok (.Boolean (!a || b))
  | .LessEqual, _, _ => .Err .InvalidArguments
  | _, _, _ => .Err .UnsupportedExpression

/-- `TryFrom<&Located<Token>> for Value` from `src/model/value.rs`:
literal token to value. -/
def literalValue (t : Token) : Outcome :=
  match t.value with
  | .Boolean b => .Ok (.Boolean b)
  | .Float bits => .Ok (.Float bits)
  | .Integer i => .Ok (.Integer i)
  | .None => .Ok .None
  | .String s => .Ok (.String s)
  | _ => .Err .InvalidToken

mutual

/-- `Interpreter::evaluate` from `src/interpreter/mod.rs`, fuel-indexed.
Each arm follows the source: `Unary` forces its operand after evaluating;
`Binary` (for a supported operator) evaluates both operands left to right,
then forces both, then dispatches (`applyBinary`); `Call` forces the
callee, allocates a child frame of the closure's captured environment,
binds the parameter to a `Thunk` of the unevaluated argument paired with
the caller's current environment, evaluates the body there, and restores
the caller's environment only on the success path (the `?` on the body
evaluation returns early, skipping the restore — the source's behaviour);
`Identifier` forces the looked-up value; `If` delegates to the branch
loop; `Lambda` captures a fresh child frame of the current environment;
`Literal` converts the token. -/
def evaluate : Nat → Expression → InterpState → Outcome × InterpState
  | 0, _, s => (.OutOfFuel, s)
  | n + 1, e, s =>
    match e with
    | .Unary op inner =>
      match op.kind with
      | .Bang =>
        bindOk (evaluate n inner s) fun v s1 =>
        bindOk (force n v s1) fun w s2 =>
        match w with
        | .Boolean b => (.Ok (.Boolean (!b)), s2)
        | _ => (.Err .InvalidArguments, s2)
      | .Minus =>
        bindOk (evaluate n inner s) fun v s1 =>
        bindOk (force n v s1) fun w s2 =>
        match w with
        | .Integer i => (if i = i128Min then .Crash else .Ok (.Integer (-i)), s2)
        | _ => (.Err .InvalidArguments, s2)
      | _ => (.Err .UnsupportedExpression, s)
    | .Binary left op right =>
      if isSupportedBinary op.kind then
        bindOk (evaluate n left s) fun lv s1 =>
        bindOk (evaluate n right s1) fun rv s2 =>
        bindOk (force n lv s2) fun lf s3 =>
        bindOk (force n rv s3) fun rf s4 =>
        (applyBinary op.kind lf rf, s4)
      else (.Err .UnsupportedExpression, s)
    | .Call fexp argExp =>
      bindOk (evaluate n fexp s) fun fv s1 =>
      match force n fv s1 with
      | (.Ok (.Function parameter body envRef), s2) =>
        let old := s2.env
        let (heap1, newRef) := allocFrame s2.heap (some envRef)
        match parameter.getIdentifierName with
        | some pname =>
          let thunk := Value.Thunk argExp s2.env
          let heap2 := heapSet heap1 newRef pname thunk
          (match evaluate n body { s2 with heap := heap2, env := newRef } with
           | (.Ok v, s4) => (.Ok v, { s4 with env := old })
           | other => other)
        | none => (.Err .InvalidToken, { s2 with heap := heap1 })
      | (.Ok _, s2) => (.Err .ExpectedExpression, s2)
      | other => other
    | .Identifier token =>
      match token.value with
      | .Identifier name =>
        match envGet s.heap name s.env with
        | some v => force n v s
        | none => (.Err .InvalidIdentifier, s)
      | _ => (.Err .UnsupportedExpression, s)
    | .If branches otherwise => evalIf n branches otherwise s
    | .Lambda parameter body =>
      let (heap1, newRef) := allocFrame s.heap (some s.env)
      (.Ok (.Function parameter body newRef), { s with heap := heap1 })
    | .Literal token => (literalValue token, s)

/-- The branch loop of the `Expression::If` arm of `Interpreter::evaluate`
(`src/interpreter/mod.rs`): conditions are evaluated and forced in
declaration order; the first branch whose forced condition is
`Boolean(true)` has its body evaluated and returned; if none matches, the
`otherwise` body is evaluated. -/
def evalIf : Nat → List (Expression × Expression) → Expression → InterpState →
    Outcome × InterpState
  | 0, _, _, s => (.OutOfFuel, s)
  | n + 1, [], otherwise, s => evaluate n otherwise s
  | n + 1, (condition, body) :: rest, otherwise, s =>
    bindOk (evaluate n condition s) fun v s1 =>
    bindOk (force n v s1) fun w s2 =>
    match w with
    | .Boolean true => evaluate n body s2
    | _ => evalIf n rest otherwise s2

/-- `Interpreter::force` from `src/interpreter/mod.rs`: a `Thunk` is
evaluated under its captured environment (restoring the current
environment on success only — the `?` skips the restore on error, as in
the source) and the result is forced again; any other value is returned
unchanged. -/
def force : Nat → Value → InterpState → Outcome × InterpState
  | 0, .Thunk _ _, s => (.OutOfFuel, s)
  | n + 1, .Thunk e envRef, s =>
    let old := s.env
    (match evaluate n e { s with env := envRef } with
     | (.Ok v, s1) => force n v { s1 with env := old }
     | other => other)
  | _, v, s => (.Ok v, s)

end

/-- `Interpreter::execute` from `src/interpreter/mod.rs` (minus `Use`):
`Declaration` is `todo!()` (a panic); `Definition` binds the name in the
current environment to a `Function` closing over a fresh child frame of
the current environment; `Expression` evaluates, forces and prints
(recorded in `output`); `Variable` evaluates eagerly and binds the result.
The `Ok` payload of a successful statement is the unit `Value.None`. -/
def executeStmt (n : Nat) (stmt : Statement) (s : InterpState) : Outcome × InterpState :=
  match stmt with
  | .Declaration _ _ => (.Crash, s)
  | .Definition name parameter body =>
    match name.getIdentifierName with
    | some nm =>
      let (heap1, newRef) := allocFrame s.heap (some s.env)
      (.Ok .None, { s with heap := heapSet heap1 s.env nm (.Function parameter body newRef) })
    | none => (.Err .InvalidToken, s)
  | .Expression e =>
    bindOk (evaluate n e s) fun v s1 =>
    bindOk (force n v s1) fun fv s2 =>
    (.Ok .None, { s2 with output := s2.output ++ [fv] })
  | .Variable name body =>
    match name.getIdentifierName with
    | some nm =>
      bindOk (evaluate n body s) fun v s1 =>
      (.Ok .None, { s1 with heap := heapSet s1.heap s1.env nm v })
    | none => (.Err .InvalidToken, s)

/-- `Interpreter::interpret` from `src/interpreter/mod.rs`: execute the
statements in order, aborting at the first non-`Ok` result. -/
def interpret (n : Nat) : List Statement → InterpState → Outcome × InterpState
  | [], s => (.Ok .None, s)
  | stmt :: rest, s =>
    match executeStmt n stmt s with
    | (.Ok _, s1) => interpret n rest s1
    | other => other

/-- The root state: one empty root frame (`Environment::new`), no output. -/
def initState : InterpState := ⟨[⟨[], none⟩], 0, []⟩

/-- Result of a parsing step: a parsed node together with the parser's new
token index (`Parser::index`), or a parse error by kind, or fuel
exhaustion (artificial). -/
inductive PResult (α : Type) where
  | Ok (a : α) (index : Nat)
  | Err (e : ErrorKind)
  | OutOfFuel

/-- `Parser::current_is` from `src/parser/parser.rs` (with
`Parser::current` inlined as an indexed lookup). -/
def currentIs (tokens : List Token) (i : Nat) (kind : TokenKind) : Bool :=
  match tokens[i]? with
  | some t => t.kind = kind
  | none => false

/-- `Parser::next_is` from `src/parser/parser.rs`. -/
def nextIs (tokens : List Token) (i n : Nat) (kind : TokenKind) : Bool :=
  match tokens[i + n]? with
  | some t => t.kind = kind
  | none => false

/-- `Parser::is_eof` from `src/parser/parser.rs`. -/
def isEof (tokens : List Token) (i : Nat) : Bool :=
  Nat.ble tokens.length i

/-- `Parser::is_end_of_expression` from `src/parser/parser.rs`. -/
def isEndOfExpression (tokens : List Token) (i : Nat) : Bool :=
  isEof tokens i || currentIs tokens i .Newline || currentIs tokens i .Semicolon

/-- `Parser::curry_definition` from `src/parser/parser.rs`: error on an
empty parameter list, else the first parameter becomes the `Definition`'s
declared parameter and the remaining ones are folded right-to-left into
nested `Lambda` nodes around the body (the source's reversed `for` loop
over the remaining parameters is exactly `List.foldr`). -/
def curryDefinition (name : Token) (parameters : List Token) (body : Expression) :
    Except ErrorKind Statement :=
  match parameters with
  | [] => .error .MissingParameter
  | first :: rest =>
    .ok (.Definition name first (rest.foldr (fun p acc => .Lambda p acc) body))

mutual

/-- `Parser::parse` from `src/parser/parser.rs`: the top-level loop —
skip newline tokens, parse one statement, repeat until end of input. -/
def parseProgram : Nat → List Token → Nat → PResult (List Statement)
  | 0, _, _ => .OutOfFuel
  | n + 1, tokens, i =>
    if isEof tokens i then .Ok [] i
    else if currentIs tokens i .Newline then parseProgram n tokens (i + 1)
    else
      match parseStatement n tokens i with
      | .Ok stmt i1 =>
        match parseProgram n tokens i1 with
        | .Ok stmts i2 => .Ok (stmt :: stmts) i2
        | other => other
      | .Err e => .Err e
      | .OutOfFuel => .OutOfFuel
termination_by structural n _ _ => n

/-- `Parser::parse_statement` from `src/parser/parser.rs`. -/
def parseStatement : Nat → List Token → Nat → PResult Statement
  | 0, _, _ => .OutOfFuel
  | n + 1, tokens, i => parseDeclaration n tokens i

/-- `Parser::parse_declaration` from `src/parser/parser.rs`: an identifier
directly followed by `:` starts a declaration (name, then a run of
identifier/`_` type tokens); anything else falls through to
`parse_definition`. -/
def parseDeclaration : Nat → List Token → Nat → PResult Statement
  | 0, _, _ => .OutOfFuel
  | n + 1, tokens, i =>
    if !nextIs tokens i 1 .Colon then parseDefinition n tokens i
    else
      match tokens[i]? with
      | none => .Err .UnexpectedEndOfFile
      | some name =>
        match name.kind with
        | .Identifier =>
          let types := (tokens.drop (i + 2)).takeWhile
            (fun t => t.kind = .Underscore || t.kind = .Identifier)
          .Ok (.Declaration name types) (i + 2 + types.length)
        | _ => .Err .ExpectedExpression

/-- `Parser::parse_definition` from `src/parser/parser.rs`: a definition
requires the current token to be an identifier and the first non-primary
token from here to be `=`; otherwise the statement is a bare expression.
For a definition: the name, then a run of primary parameter tokens (the
source's `while` loop is `List.takeWhile`), an unconditional `advance`
over `=`, the body, then currying (`curryDefinition`). -/
def parseDefinition : Nat → List Token → Nat → PResult Statement
  | 0, _, _ => .OutOfFuel
  | n + 1, tokens, i =>
    let isDef := currentIs tokens i .Identifier &&
      (match (tokens.drop i).find? (fun t => !t.kind.isPrimary) with
       | some t => t.kind = .Equal
       | none => false)
    if !isDef then
      match parseExpression n tokens i .None with
      | .Ok e i1 => .Ok (.Expression e) i1
      | .Err e => .Err e
      | .OutOfFuel => .OutOfFuel
    else
      match tokens[i]? with
      | none => .Err .UnexpectedEndOfFile
      | some name =>
        if !nextIs tokens i 1 .Identifier then .Err .ExpectedExpression
        else
          let parameters := (tokens.drop (i + 1)).takeWhile (fun t => t.kind.isPrimary)
          match parseExpression n tokens (i + 1 + parameters.length + 1) .None with
          | .Ok body i1 =>
            match curryDefinition name parameters body with
            | .ok stmt => .Ok stmt i1
            | .error e => .Err e
          | .Err e => .Err e
          | .OutOfFuel => .OutOfFuel

/-- `Parser::parse_expression` from `src/parser/parser.rs`: precedence
climbing — parse a prefix form, then loop on infix continuations. -/
def parseExpression : Nat → List Token → Nat → Precedence → PResult Expression
  | 0, _, _, _ => .OutOfFuel
  | n + 1, tokens, i, minPrec =>
    match parsePrefix n tokens i with
    | .Ok left i1 => parseExprLoop n tokens i1 minPrec left
    | other => other
termination_by structural n _ _ _ => n

/-- The `while` loop of `Parser::parse_expression`: stop at end of input
or when the current token's precedence does not exceed the minimum
(`current_precedence <= precedence` breaks — so an operator of equal
precedence does NOT re-enter, making every infix operator, including
`**`, left-associative); otherwise consume an infix continuation. -/
def parseExprLoop : Nat → List Token → Nat → Precedence → Expression → PResult Expression
  | 0, _, _, _, _ => .OutOfFuel
  | n + 1, tokens, i, minPrec, left =>
    if isEof tokens i then .Ok left i
    else
      match tokens[i]? with
      | none => .Ok left i
      | some t =>
        if (Precedence.ofTokenKind t.kind).ble minPrec then .Ok left i
        else
          match parseInfix n tokens i left (Precedence.ofTokenKind t.kind) with
          | .Ok left1 i1 => parseExprLoop n tokens i1 minPrec left1
          | other => other
termination_by structural n _ _ _ _ => n

/-- `Parser::parse_infix` from `src/parser/parser.rs`: consume the
operator and parse the right operand at the operator's own precedence. -/
def parseInfix : Nat → List Token → Nat → Expression → Precedence → PResult Expression
  | 0, _, _, _, _ => .OutOfFuel
  | n + 1, tokens, i, left, prec =>
    match tokens[i]? with
    | none => .Err .UnexpectedEndOfFile
    | some operator =>
      match parseExpression n tokens (i + 1) prec with
      | .Ok right i1 => .Ok (.Binary left operator right) i1
      | other => other
termination_by structural n _ _ _ _ => n

/-- `Parser::parse_prefix` from `src/parser/parser.rs`: unary `!`/`-`;
an identifier run ending in `$` is a lambda literal; a bare identifier
becomes an `Identifier` node and enters the juxtaposition-call loop
(`parseCall`) — note only this arm does; a parenthesized expression;
literal tokens; `if`. -/
def parsePrefix : Nat → List Token → Nat → PResult Expression
  | 0, _, _ => .OutOfFuel
  | n + 1, tokens, i =>
    match tokens[i]? with
    | none => .Err .UnexpectedEndOfFile
    | some token =>
      match token.kind with
      | .Bang | .Minus =>
        match parseExpression n tokens (i + 1) .Prefix with
        | .Ok right i1 => .Ok (.Unary token right) i1
        | other => other
      | .Identifier =>
        let lambdaHead : Bool :=
          match (tokens.drop i).find? (fun t => t.kind != TokenKind.Identifier) with
          | some t => t.kind == TokenKind.Dollar
          | none => false
        match lambdaHead with
        | true => parseLambda n tokens i
        | false => parseCall n tokens (i + 1) (.Identifier token)
      | .LeftParenthesis =>
        match parseExpression n tokens (i + 1) .None with
        | .Ok e i1 =>
          if currentIs tokens i1 .RightParenthesis then .Ok e (i1 + 1)
          else .Err .MissingClosingParenthesis
        | other => other
      | .True | .False | .Null | .Float | .Integer | .String | .Underscore =>
        .Ok (.Literal token) (i + 1)
      | .If => parseIf n tokens (i + 1)
      | _ => .Err .ExpectedExpression
termination_by structural n _ _ => n

/-- `Parser::parse_lambda` from `src/parser/parser.rs`: collect the
leading identifier run as parameters (`List.takeWhile`), require `$`,
parse the body, then curry right-to-left (the source's reversed loop is
`List.foldr`). -/
def parseLambda : Nat → List Token → Nat → PResult Expression
  | 0, _, _ => .OutOfFuel
  | n + 1, tokens, i =>
    let parameters := (tokens.drop i).takeWhile (fun t => t.kind = .Identifier)
    let i1 := i + parameters.length
    if !currentIs tokens i1 .Dollar then .Err .ExpectedExpression
    else
      match parseExpression n tokens (i1 + 1) .None with
      | .Ok body i2 => .Ok (parameters.foldr (fun p acc => .Lambda p acc) body) i2
      | other => other
termination_by structural n _ _ => n

/-- `Parser::parse_call` from `src/parser/parser.rs`: while not at end of
expression and the current token may start an argument, parse the
argument at `Application` precedence and wrap `Call(expression, argument)`
left-associatively. -/
def parseCall : Nat → List Token → Nat → Expression → PResult Expression
  | 0, _, _, _ => .OutOfFuel
  | n + 1, tokens, i, expression =>
    if isEndOfExpression tokens i then .Ok expression i
    else
      match tokens[i]? with
      | none => .Ok expression i
      | some t =>
        match t.kind with
        | .Identifier | .LeftParenthesis | .True | .False | .Null
        | .Float | .Integer | .String | .Underscore | .If =>
          match parseExpression n tokens i .Application with
          | .Ok argument i1 => parseCall n tokens i1 (.Call expression argument)
          | other => other
        | _ => .Ok expression i
termination_by structural n _ _ _ => n

/-- `Parser::parse_if` from `src/parser/parser.rs` (entered after the `if`
token was consumed): condition, mandatory `then`, body, then the
elif/else continuation. -/
def parseIf : Nat → List Token → Nat → PResult Expression
  | 0, _, _ => .OutOfFuel
  | n + 1, tokens, i =>
    match parseExpression n tokens i .None with
    | .Ok condition i1 =>
      if !currentIs tokens i1 .Then then .Err .IncompleteIf
      else
        match parseExpression n tokens (i1 + 1) .None with
        | .Ok body i2 => parseElifs n tokens i2 [(condition, body)]
        | other => other
    | other => other
termination_by structural n _ _ => n

/-- The `elif` loop and mandatory `else` of `Parser::parse_if`: branches
accumulate in declaration order; a missing `then`/`else` is
`IncompleteIf`. -/
def parseElifs : Nat → List Token → Nat → List (Expression × Expression) → PResult Expression
  | 0, _, _, _ => .OutOfFuel
  | n + 1, tokens, i, branches =>
    if currentIs tokens i .Elif then
      match parseExpression n tokens (i + 1) .None with
      | .Ok condition i1 =>
        if !currentIs tokens i1 .Then then .Err .IncompleteIf
        else
          match parseExpression n tokens (i1 + 1) .None with
          | .Ok body i2 => parseElifs n tokens i2 (branches ++ [(condition, body)])
          | other => other
      | other => other
    else if !currentIs tokens i .Else then .Err .IncompleteIf
    else
      match parseExpression n tokens (i + 1) .None with
      | .Ok otherwise i1 => .Ok (.If branches otherwise) i1
      | other => other
termination_by structural n _ _ _ => n

end

/-- The `run` pipeline of `src/main.rs`, from tokens on: parse the token
stream, then interpret the statements against a fresh root environment
(the lexer stage is elided — inputs are given as token lists). -/
def runTokens (fuel : Nat) (tokens : List Token) : Outcome × InterpState :=
  match parseProgram fuel tokens 0 with
  | .Ok stmts _ => interpret fuel stmts initState
  | .Err e => (.Err e, initState)
  | .OutOfFuel => (.OutOfFuel, initState)

/-- Integer literal token. -/
def tokInt (i : Int) : Token := ⟨.Integer, .Integer i⟩

/-- Float literal token (payload: IEEE-754 bits, uninterpreted). -/
def tokFloat (bits : Nat) : Token := ⟨.Float, .Float bits⟩

/-- Identifier token. -/
def tokId (s : String) : Token := ⟨.Identifier, .Identifier s⟩

/-- Keyword/punctuation/operator token (payload `None`). -/
def tok (k : TokenKind) : Token := ⟨k, .None⟩

/-- Boolean literal tokens carry their payload (`TokenValue::Boolean`). -/
def tokTrue : Token := ⟨.True, .Boolean true⟩

/-- Boolean literal token for `false`. -/
def tokFalse : Token := ⟨.False, .Boolean false⟩

/-- Token stream of the spec's precedence example `3 + 4 * 2`. -/
def progArith : List Token := [tokInt 3, tok .Plus, tokInt 4, tok .Star, tokInt 2]

/-- Token stream of the spec's associativity example `2 ** 3 ** 2`. -/
def progPow : List Token := [tokInt 2, tok .StarStar, tokInt 3, tok .StarStar, tokInt 2]

/-- Token stream of the spec's currying example, two statements:
`add a b = a + b` and `add 2 3`. -/
def progAdd : List Token :=
  [tokId "add", tokId "a", tokId "b", tok .Equal, tokId "a", tok .Plus, tokId "b",
   tok .Newline, tokId "add", tokInt 2, tokInt 3]

/-- Token stream of `add a b = a + b` followed by the partial
application `add 2`. -/
def progAddPartial : List Token :=
  [tokId "add", tokId "a", tokId "b", tok .Equal, tokId "a", tok .Plus, tokId "b",
   tok .Newline, tokId "add", tokInt 2]

/-- Token stream of the spec's laziness example `(x y $ x) 1 (1 / 0)`. -/
def progLazy : List Token :=
  [tok .LeftParenthesis, tokId "x", tokId "y", tok .Dollar, tokId "x", tok .RightParenthesis,
   tokInt 1, tok .LeftParenthesis, tokInt 1, tok .Slash, tokInt 0, tok .RightParenthesis]

/-- The laziness example as a single-call AST (what the spec's example
intends): `((x y $ x) 1) (1 / 0)`. -/
def lazyAst : Expression :=
  .Call (.Call (.Lambda (tokId "x") (.Lambda (tokId "y") (.Identifier (tokId "x"))))
      (.Literal (tokInt 1)))
    (.Binary (.Literal (tokInt 1)) (tok .Slash) (.Literal (tokInt 0)))

/-- Token stream of the spec's conditional example
`if false then (1/0) elif true then 2 else (1/0)`. -/
def progIfBranches : List Token :=
  [tok .If, tokFalse, tok .Then, tok .LeftParenthesis, tokInt 1, tok .Slash, tokInt 0,
   tok .RightParenthesis, tok .Elif, tokTrue, tok .Then, tokInt 2, tok .Else,
   tok .LeftParenthesis, tokInt 1, tok .Slash, tokInt 0, tok .RightParenthesis]

/-- Token stream of the non-Boolean-condition example `if 1 then 2 else 3`. -/
def progIfNonBool : List Token :=
  [tok .If, tokInt 1, tok .Then, tokInt 2, tok .Else, tokInt 3]

/-- Token stream of `5 / 0`. -/
def progDivZero : List Token := [tokInt 5, tok .Slash, tokInt 0]

/-- Token stream of `5 % 0`. -/
def progModZero : List Token := [tokInt 5, tok .Percent, tokInt 0]

/-- Token stream of `5.0 / 0.0` (float payloads are IEEE-754 bit
patterns: `5.0` is `0x4014000000000000`, `0.0` is `0`). -/
def progFloatDiv : List Token :=
  [tokFloat 4617315517961601024, tok .Slash, tokFloat 0]

/-- A call whose body returns normally: `(x $ 42) 7`. -/
def callOkAst : Expression :=
  .Call (.Lambda (tokId "x") (.Literal (tokInt 42))) (.Literal (tokInt 7))

/-- A call whose body raises an error: `(x $ 1 / 0) 7`. -/
def callErrAst : Expression :=
  .Call (.Lambda (tokId "x") (.Binary (.Literal (tokInt 1)) (tok .Slash) (.Literal (tokInt 0))))
    (.Literal (tokInt 7))

/-- The spec's overflow example as an AST: the maximum `i128` plus one. -/
def overflowAst : Expression :=
  .Binary (.Literal (tokInt i128Max)) (tok .Plus) (.Literal (tokInt 1))

set_option maxRecDepth 8000

/-- Forcing, when it succeeds, never returns a `Thunk`: `force` recurses
on its own result until a non-thunk value is reached. -/
theorem force_ok_not_thunk :
    ∀ n v s v' s', force n v s = (.Ok v', s') → v'.isThunk = false := by
  intro n
  induction n with
  | zero =>
    intro v s v' s' h
    cases v <;> simp [force] at h <;> simp [← h.1, Value.isThunk]
  | succ n ih =>
    intro v s v' s' h
    cases v with
    | Thunk e envRef =>
      simp only [force] at h
      cases hev : evaluate n e { s with env := envRef } with
      | mk r s1 =>
        rw [hev] at h
        cases r with
        | Ok w => exact ih w _ v' s' h
        | Err e2 => simp at h
        | Crash => simp at h
        | OutOfFuel => simp at h
    | Boolean b => simp [force] at h; simp [← h.1, Value.isThunk]
    | Float bits => simp [force] at h; simp [← h.1, Value.isThunk]
    | Integer i => simp [force] at h; simp [← h.1, Value.isThunk]
    | None => simp [force] at h; simp [← h.1, Value.isThunk]
    | String str => simp [force] at h; simp [← h.1, Value.isThunk]
    | Function p b envR => simp [force] at h; simp [← h.1, Value.isThunk]

/-- Forcing an already-forced (non-thunk) value is the identity,
regardless of fuel. -/
theorem force_not_thunk_id :
    ∀ n v s, v.isThunk = false → force n v s = (.Ok v, s) := by
  intro n v s h
  cases v <;> cases n <;> simp [force] <;> simp [Value.isThunk] at h

/-- The `Expression::Identifier` arm forces the looked-up value, so a
successful identifier evaluation never returns a `Thunk`. -/
theorem eval_identifier_not_thunk :
    ∀ n tk s v s', evaluate n (.Identifier tk) s = (.Ok v, s') → v.isThunk = false := by
  intro n tk s v s' h
  cases n with
  | zero => simp [evaluate] at h
  | succ n =>
    simp only [evaluate] at h
    cases htv : tk.value <;> rw [htv] at h <;> try simp at h
    case Identifier name =>
      cases hg : envGet s.heap name s.env with
      | some w =>
        rw [hg] at h
        exact force_ok_not_thunk n w s v s' h
      | none => rw [hg] at h; simp at h

/-- A successful `Statement::Expression` forces the value before
printing, so the value appended to the output is never a `Thunk`. -/
theorem exec_expression_output_not_thunk :
    ∀ n e s o s', executeStmt n (.Expression e) s = (o, s') → o = .Ok .None →
      ∃ v, v.isThunk = false ∧ s'.output = (s'.output.dropLast) ++ [v] := by
  intro n e s o s' h ho
  subst ho
  simp only [executeStmt] at h
  cases hev : evaluate n e s with
  | mk r1 s1 =>
    rw [hev] at h
    cases r1 with
    | Ok v =>
      simp only [bindOk] at h
      cases hf : force n v s1 with
      | mk r2 s2 =>
        rw [hf] at h
        cases r2 with
        | Ok fv =>
          simp only [bindOk] at h
          injection h with h1 h2
          refine ⟨fv, force_ok_not_thunk n v s1 fv s2 hf, ?_⟩
          rw [← h2]
          simp
        | Err e2 => simp [bindOk] at h
        | Crash => simp [bindOk] at h
        | OutOfFuel => simp [bindOk] at h
    | Err e2 => simp [bindOk] at h
    | Crash => simp [bindOk] at h
    | OutOfFuel => simp [bindOk] at h

/-- With no branch left, the `If` loop evaluates the `otherwise` body. -/
theorem evalIf_nil (n : Nat) (ow : Expression) (s : InterpState) :
    evalIf (n + 1) [] ow s = evaluate n ow s := by
  simp [evalIf]

/-- A branch whose condition forces to `Boolean(true)` has its body
evaluated and returned; the remaining branches and the `otherwise` body
do not occur in the result. -/
theorem evalIf_true (n : Nat) (c b : Expression) (rest : List (Expression × Expression))
    (ow : Expression) (s s1 s2 : InterpState) (v : Value)
    (h1 : evaluate n c s = (.Ok v, s1))
    (h2 : force n v s1 = (.Ok (.Boolean true), s2)) :
    evalIf (n + 1) ((c, b) :: rest) ow s = evaluate n b s2 := by
  simp only [evalIf]
  rw [h1]
  simp only [bindOk]
  rw [h2]

/-- A branch whose condition forces to anything other than
`Boolean(true)` is skipped (no error raised), and the loop continues with
the remaining branches from the post-condition state. -/
theorem evalIf_skip (n : Nat) (c b : Expression) (rest : List (Expression × Expression))
    (ow : Expression) (s s1 s2 : InterpState) (v w : Value)
    (h1 : evaluate n c s = (.Ok v, s1))
    (h2 : force n v s1 = (.Ok w, s2))
    (hw : w ≠ .Boolean true) :
    evalIf (n + 1) ((c, b) :: rest) ow s = evalIf n rest ow s2 := by
  simp only [evalIf]
  rw [h1]
  simp only [bindOk]
  rw [h2]
  cases w with
  | Boolean bb => cases bb with
    | true => exact absurd rfl hw
    | false => rfl
  | Float bits => rfl
  | Integer i => rfl
  | None => rfl
  | String str => rfl
  | Function p bd e => rfl
  | Thunk e r => rfl

/-- Indexing a heap extended by one frame at the old length yields the
new frame. -/
theorem append_frame_getElem (heap : List Frame) (f : Frame) :
    (heap ++ [f])[heap.length]? = some f := by
  rw [List.getElem?_append_right (Nat.le_refl _)]
  simp

/-- Looking up a key in a freshly allocated frame that was just bound to
`v` yields `v` (the parameter binding installed at call time). -/
theorem envGet_fresh_binding (heap : List Frame) (p : Option Nat) (key : String) (v : Value) :
    envGet (heapSet (heap ++ [⟨[], p⟩]) heap.length key v) key heap.length = some v := by
  have hs : heapSet (heap ++ [⟨[], p⟩]) heap.length key v =
      (heap ++ [(⟨[], p⟩ : Frame)]).set heap.length ⟨[(key, v)], p⟩ := by
    unfold heapSet
    rw [append_frame_getElem]
  have hg : ((heap ++ [(⟨[], p⟩ : Frame)]).set heap.length
      (⟨[(key, v)], p⟩ : Frame))[heap.length]? = some ⟨[(key, v)], p⟩ := by
    rw [List.getElem?_set_eq_of_lt]
    simp
  rw [hs]
  simp [envGet, envGetAux, hg, List.lookup]

/-- Unfolding of the `Expression::Call` arm for a callee that forces to a
user-defined `Function`: a child frame of the closure's captured
environment is allocated, the parameter is bound there to a `Thunk`
wrapping the still-unevaluated argument expression together with the
caller's current environment, the body is evaluated in that frame, and
the caller's environment is restored on the success path. -/
theorem call_binds_thunk (n : Nat) (fexp argExp body : Expression) (parameter : Token)
    (envRef : Nat) (pname : String) (s s1 s2 : InterpState) (fv : Value)
    (h1 : evaluate n fexp s = (.Ok fv, s1))
    (h2 : force n fv s1 = (.Ok (.Function parameter body envRef), s2))
    (h3 : parameter.getIdentifierName = some pname) :
    evaluate (n + 1) (.Call fexp argExp) s =
      (match evaluate n body
          { s2 with
            heap := heapSet (s2.heap ++ [⟨[], some envRef⟩]) s2.heap.length pname
              (.Thunk argExp s2.env),
            env := s2.heap.length } with
       | (.Ok v, s4) => (.Ok v, { s4 with env := s2.env })
       | other => other) := by
  simp only [evaluate]
  rw [h1]
  simp only [bindOk]
  simp only [h2, h3]
  simp [allocFrame]

/-- C1, counterexample: the spec's laziness example `(x y $ x) 1 (1 / 0)`
does not parse as a single call — juxtaposition application is only
entered after an identifier prefix, never after a parenthesized
expression — so the program parses as three separate statements (the
lambda, the literal `1`, and `(1 / 0)`), and running it raises
`DivisionByZero` instead of printing `Integer(1)`. -/
theorem icypeas_c1_counterexample :
    parseProgram 100 progLazy 0 = .Ok
      [.Expression (.Lambda (tokId "x") (.Lambda (tokId "y") (.Identifier (tokId "x")))),
       .Expression (.Literal (tokInt 1)),
       .Expression (.Binary (.Literal (tokInt 1)) (tok .Slash) (.Literal (tokInt 0)))] 12 ∧
    (runTokens 100 progLazy).1 = .Err .DivisionByZero ∧
    (runTokens 100 progLazy).1 ≠ .Ok (.Integer 1) := by
  refine ⟨rfl, rfl, fun h => ?_⟩
  rw [show (runTokens 100 progLazy).1 = Outcome.Err .DivisionByZero from rfl] at h
  exact Outcome.noConfusion h

/-- C1, amended: for every application of a user-defined function value
the parameter is bound to a `Thunk` wrapping the unevaluated argument
expression together with the caller's current environment (first
conjunct: the `Call` arm's unfolding; second conjunct: the installed
binding is exactly that thunk), so an argument the body never uses is
never evaluated — the single-call AST `((x y $ x) 1) (1 / 0)` evaluates
to `Integer(1)` with no `DivisionByZero` (third conjunct).  However, the
surface program `(x y $ x) 1 (1 / 0)` does not parse as that call (see
the counterexample). -/
theorem icypeas_c1_lazy_call_amended :
    (∀ (n : Nat) (fexp argExp body : Expression) (parameter : Token) (envRef : Nat)
        (pname : String) (s s1 s2 : InterpState) (fv : Value),
      evaluate n fexp s = (.Ok fv, s1) →
      force n fv s1 = (.Ok (.Function parameter body envRef), s2) →
      parameter.getIdentifierName = some pname →
      evaluate (n + 1) (.Call fexp argExp) s =
        (match evaluate n body
            { s2 with
              heap := heapSet (s2.heap ++ [⟨[], some envRef⟩]) s2.heap.length pname
                (.Thunk argExp s2.env),
              env := s2.heap.length } with
         | (.Ok v, s4) => (.Ok v, { s4 with env := s2.env })
         | other => other)) ∧
    (∀ (heap : List Frame) (p : Option Nat) (key : String) (argExp : Expression) (env : Nat),
      envGet (heapSet (heap ++ [⟨[], p⟩]) heap.length key (.Thunk argExp env)) key heap.length =
        some (.Thunk argExp env)) ∧
    (evaluate 100 lazyAst initState).1 = .Ok (.Integer 1) :=
  ⟨fun n fexp argExp body parameter envRef pname s s1 s2 fv h1 h2 h3 =>
      call_binds_thunk n fexp argExp body parameter envRef pname s s1 s2 fv h1 h2 h3,
   fun heap p key argExp env => envGet_fresh_binding heap p key (.Thunk argExp env),
   rfl⟩

/-- C1, witness: the call equation of `icypeas_c1_lazy_call_amended`
instantiated at the concrete call `(x $ x) 9`, its hypotheses discharged
by computation. -/
theorem icypeas_c1_witness :
    evaluate 1 (.Lambda (tokId "x") (.Identifier (tokId "x"))) initState =
      (.Ok (.Function (tokId "x") (.Identifier (tokId "x")) 1),
       ⟨[⟨[], none⟩, ⟨[], some 0⟩], 0, []⟩) ∧
    evaluate 2 (.Call (.Lambda (tokId "x") (.Identifier (tokId "x"))) (.Literal (tokInt 9)))
        initState =
      (match evaluate 1 (.Identifier (tokId "x"))
          { heap := heapSet ([⟨[], none⟩, ⟨[], some 0⟩] ++ [⟨[], some 1⟩]) 2 "x"
              (.Thunk (.Literal (tokInt 9)) 0),
            env := 2, output := [] } with
       | (.Ok v, s4) => (.Ok v, { s4 with env := 0 })
       | other => other) :=
  ⟨rfl,
   icypeas_c1_lazy_call_amended.1 1 (.Lambda (tokId "x") (.Identifier (tokId "x")))
     (.Literal (tokInt 9)) (.Identifier (tokId "x")) (tokId "x") 1 "x" initState
     ⟨[⟨[], none⟩, ⟨[], some 0⟩], 0, []⟩ ⟨[⟨[], none⟩, ⟨[], some 0⟩], 0, []⟩
     (.Function (tokId "x") (.Identifier (tokId "x")) 1) rfl rfl rfl⟩

/-- C2: after a call of a user-defined function whose body returns a
value, the interpreter's acting environment is restored (first two
conjuncts: `(x $ 42) 7` returns `Integer(42)` with the environment back
at the root frame); but when the body raises an error, the early `?`
return skips the restore and the acting environment is left at the
callee's frame — `(x $ 1 / 0) 7` ends with `DivisionByZero` and the
environment pointing at frame `2` (the call frame), not the root frame
`0` it started from.  This contradicts the claim's error-path half. -/
theorem icypeas_c2_env_restore_code_bug :
    (evaluate 100 callOkAst initState).1 = .Ok (.Integer 42) ∧
    (evaluate 100 callOkAst initState).2.env = initState.env ∧
    (evaluate 100 callErrAst initState).1 = .Err .DivisionByZero ∧
    (evaluate 100 callErrAst initState).2.env = 2 ∧
    initState.env = 0 :=
  ⟨rfl, rfl, rfl, rfl, rfl⟩

/-- C3: the parser folds a definition's parameter list right-to-left
into nested lambdas with the first parameter as the declared parameter
(first conjunct, over `curry_definition`); `add a b = a + b` parses to
`Definition(add, a, Lambda(b, a + b))` (second conjunct); evaluating
`add 2 3` prints `Integer(5)`, and the partial application `add 2`
prints a `Function` value. -/
theorem icypeas_c3_currying :
    (∀ (name first : Token) (rest : List Token) (body : Expression),
      curryDefinition name (first :: rest) body =
        .ok (.Definition name first (rest.foldr (fun p acc => .Lambda p acc) body))) ∧
    parseProgram 100 progAdd 0 = .Ok
      [.Definition (tokId "add") (tokId "a")
          (.Lambda (tokId "b")
            (.Binary (.Identifier (tokId "a")) (tok .Plus) (.Identifier (tokId "b")))),
       .Expression (.Call (.Call (.Identifier (tokId "add")) (.Literal (tokInt 2)))
          (.Literal (tokInt 3)))] 11 ∧
    (runTokens 100 progAdd).1 = .Ok .None ∧
    (runTokens 100 progAdd).2.output = [.Integer 5] ∧
    (runTokens 100 progAddPartial).1 = .Ok .None ∧
    (runTokens 100 progAddPartial).2.output.map Value.isFunction = [true] :=
  ⟨fun _ _ _ _ => rfl, rfl, rfl, rfl, rfl, rfl⟩

/-- C4, counterexample: `2 ** 3 ** 2` evaluates to `Integer(64)`, not
the claimed `Integer(512)` — the climbing loop breaks when the next
operator's precedence is less than or equal to the current minimum, so
`**` associates to the left. -/
theorem icypeas_c4_counterexample :
    (runTokens 100 progPow).2.output = [.Integer 64] ∧
    (runTokens 100 progPow).2.output ≠ [.Integer 512] := by
  refine ⟨rfl, fun h => ?_⟩
  rw [show (runTokens 100 progPow).2.output = [Value.Integer 64] from rfl] at h
  simp only [List.cons.injEq, and_true] at h
  injection h with hi
  exact absurd hi (by decide)

/-- C4, amended: `3 + 4 * 2` evaluates to `Integer(11)`; `**` is
left-associative (the right operand re-enters the climb at the same
precedence and an equal-precedence operator breaks the loop), so
`2 ** 3 ** 2` parses as `(2 ** 3) ** 2` (third conjunct exhibits the
left-nested tree) and evaluates to `Integer(64)`. -/
theorem icypeas_c4_precedence_amended :
    (runTokens 100 progArith).1 = .Ok .None ∧
    (runTokens 100 progArith).2.output = [.Integer 11] ∧
    parseProgram 100 progPow 0 = .Ok
      [.Expression (.Binary
          (.Binary (.Literal (tokInt 2)) (tok .StarStar) (.Literal (tokInt 3)))
          (tok .StarStar) (.Literal (tokInt 2)))] 5 ∧
    (runTokens 100 progPow).1 = .Ok .None ∧
    (runTokens 100 progPow).2.output = [.Integer 64] :=
  ⟨rfl, rfl, rfl, rfl, rfl⟩

/-- C5: `If` branch conditions are evaluated and forced in declaration
order — the first branch whose forced condition is `Boolean(true)` has
its body evaluated and returned with no later condition or body touched
(first conjunct); any other forced condition value moves the loop to the
next branch (second conjunct); when no branch matches, the `otherwise`
body is evaluated (third conjunct); the `If` arm is exactly this loop
(fourth conjunct); and
`if false then (1/0) elif true then 2 else (1/0)` prints `Integer(2)`
with no `DivisionByZero`. -/
theorem icypeas_c5_if_order :
    (∀ (n : Nat) (c b : Expression) (rest : List (Expression × Expression)) (ow : Expression)
        (s s1 s2 : InterpState) (v : Value),
      evaluate n c s = (.Ok v, s1) → force n v s1 = (.Ok (.Boolean true), s2) →
      evalIf (n + 1) ((c, b) :: rest) ow s = evaluate n b s2) ∧
    (∀ (n : Nat) (c b : Expression) (rest : List (Expression × Expression)) (ow : Expression)
        (s s1 s2 : InterpState) (v w : Value),
      evaluate n c s = (.Ok v, s1) → force n v s1 = (.Ok w, s2) → w ≠ .Boolean true →
      evalIf (n + 1) ((c, b) :: rest) ow s = evalIf n rest ow s2) ∧
    (∀ (n : Nat) (ow : Expression) (s : InterpState),
      evalIf (n + 1) [] ow s = evaluate n ow s) ∧
    (∀ (n : Nat) (branches : List (Expression × Expression)) (ow : Expression) (s : InterpState),
      evaluate (n + 1) (.If branches ow) s = evalIf n branches ow s) ∧
    (runTokens 100 progIfBranches).1 = .Ok .None ∧
    (runTokens 100 progIfBranches).2.output = [.Integer 2] :=
  ⟨evalIf_true, evalIf_skip, evalIf_nil, fun _ _ _ _ => rfl, rfl, rfl⟩

/-- C5, witness: the taken-branch equation of `icypeas_c5_if_order`
instantiated at a concrete `true` condition. -/
theorem icypeas_c5_witness :
    evaluate 1 (.Literal tokTrue) initState = (.Ok (.Boolean true), initState) ∧
    evalIf 2 [(.Literal tokTrue, .Literal (tokInt 7))] (.Literal (tokInt 8)) initState =
      evaluate 1 (.Literal (tokInt 7)) initState :=
  ⟨rfl, icypeas_c5_if_order.1 1 (.Literal tokTrue) (.Literal (tokInt 7)) [] (.Literal (tokInt 8))
      initState initState initState (.Boolean true) rfl rfl⟩

/-- C6: for `**` on two in-range integers, an exponent fitting `u32`
gives the checked power — the mathematical power when it is representable
in `i128`, an `Overflow` error otherwise; an exponent out of the `u32`
range returns the base unchanged when it is `0` or `1`, and otherwise
raises `Overflow` for a positive exponent and `InvalidArguments` for a
negative one. -/
theorem icypeas_c6_exponentiation :
    ∀ l r : Int, inI128 l = true → inI128 r = true →
      ((0 ≤ r ∧ r ≤ u32Max) →
        ((i128Min ≤ l ^ r.toNat ∧ l ^ r.toNat ≤ i128Max) →
            applyBinary .StarStar (.Integer l) (.Integer r) = .Ok (.Integer (l ^ r.toNat))) ∧
        (¬(i128Min ≤ l ^ r.toNat ∧ l ^ r.toNat ≤ i128Max) →
            applyBinary .StarStar (.Integer l) (.Integer r) = .Err .Overflow)) ∧
      (¬(0 ≤ r ∧ r ≤ u32Max) → (0 ≤ l ∧ l ≤ 1) →
          applyBinary .StarStar (.Integer l) (.Integer r) = .Ok (.Integer l)) ∧
      (¬(0 ≤ r ∧ r ≤ u32Max) → ¬(0 ≤ l ∧ l ≤ 1) → 0 < r →
          applyBinary .StarStar (.Integer l) (.Integer r) = .Err .Overflow) ∧
      (¬(0 ≤ r ∧ r ≤ u32Max) → ¬(0 ≤ l ∧ l ≤ 1) → r < 0 →
          applyBinary .StarStar (.Integer l) (.Integer r) = .Err .InvalidArguments) := by
  intro l r hl hr
  refine ⟨fun hfit => ⟨fun hpow => ?_, fun hpow => ?_⟩,
    fun hnf hl01 => ?_, fun hnf hl01 hrpos => ?_, fun hnf hl01 hrneg => ?_⟩
  · have hb : inI128 (l ^ r.toNat) = true := decide_eq_true hpow
    simp [applyBinary, if_pos hfit, checkedPow, hb]
  · have hb : inI128 (l ^ r.toNat) = false := decide_eq_false hpow
    simp [applyBinary, if_pos hfit, checkedPow, hb]
  · simp [applyBinary, if_neg hnf, if_pos hl01]
  · simp [applyBinary, if_neg hnf, if_neg hl01, if_pos hrpos]
  · have hnpos : ¬(0 : Int) < r := by omega
    simp [applyBinary, if_neg hnf, if_neg hl01, if_neg hnpos]

/-- C6, witness: `icypeas_c6_exponentiation` instantiated at `2 ** 3`
(in the `u32` range, representable power) and at `2 ** 4294967296`
(exponent beyond `u32`, base not `0`/`1`, positive exponent). -/
theorem icypeas_c6_witness :
    inI128 2 = true ∧ inI128 3 = true ∧
    applyBinary .StarStar (.Integer 2) (.Integer 3) = .Ok (.Integer 8) ∧
    applyBinary .StarStar (.Integer 2) (.Integer 4294967296) = .Err .Overflow := by
  refine ⟨by decide, by decide, ?_, ?_⟩
  · exact ((icypeas_c6_exponentiation 2 3 (by decide) (by decide)).1 (by decide)).1 (by decide)
  · exact (icypeas_c6_exponentiation 2 4294967296 (by decide) (by decide)).2.2.1
      (by decide) (by decide) (by decide)

/-- C7: adding `1` to the maximum `i128` does not raise an `Overflow`
error — the `Plus` arm uses plain (unchecked) `i128` addition, which is
a panic under debug assertions (wraparound in release builds), modelled
as `Crash`; a `Crash` is not an interpreter error of any kind.  This
contradicts the claim that `+`/`-`/`*` are overflow-checked. -/
theorem icypeas_c7_unchecked_add_code_bug :
    applyBinary .Plus (.Integer i128Max) (.Integer 1) = .Crash ∧
    evaluate 10 overflowAst initState = (.Crash, initState) ∧
    Outcome.isErr .Crash = false :=
  ⟨rfl, rfl, rfl⟩

/-- C8, counterexample: `5.0 / 0.0` (two `Float` operands, zero right
operand) fails with `InvalidArguments` — the `/` arm only handles two
`Integer`s and every other operand combination falls to the type-error
arm — not with the claimed `DivisionByZero`. -/
theorem icypeas_c8_counterexample :
    (runTokens 100 progFloatDiv).1 = .Err .InvalidArguments ∧
    (runTokens 100 progFloatDiv).1 ≠ .Err .DivisionByZero := by
  refine ⟨rfl, fun h => ?_⟩
  rw [show (runTokens 100 progFloatDiv).1 = Outcome.Err .InvalidArguments from rfl] at h
  injection h with h2
  exact ErrorKind.noConfusion h2

/-- C8, amended: `/` and `%` on two `Integer` operands with a zero right
operand fail with `DivisionByZero` for every left operand, without
reaching the division (so no panic); on two `Float` operands they fail
with `InvalidArguments` (floats are unsupported by `/` and `%`); the
programs `5 / 0` and `5 % 0` fail with `DivisionByZero`. -/
theorem icypeas_c8_divzero_amended :
    (∀ l : Int, applyBinary .Slash (.Integer l) (.Integer 0) = .Err .DivisionByZero) ∧
    (∀ l : Int, applyBinary .Percent (.Integer l) (.Integer 0) = .Err .DivisionByZero) ∧
    (∀ a b : Nat, applyBinary .Slash (.Float a) (.Float b) = .Err .InvalidArguments) ∧
    (∀ a b : Nat, applyBinary .Percent (.Float a) (.Float b) = .Err .InvalidArguments) ∧
    (runTokens 100 progDivZero).1 = .Err .DivisionByZero ∧
    (runTokens 100 progModZero).1 = .Err .DivisionByZero := by
  refine ⟨fun l => ?_, fun l => ?_, fun a b => rfl, fun a b => rfl, rfl, rfl⟩
  · simp [applyBinary]
  · simp [applyBinary]

/-- C9: a successfully forced value is never a `Thunk` (forcing recurses
until a non-thunk value is reached); forcing a non-thunk value returns
it unchanged; an identifier lookup's successful result is never a
`Thunk`; and the value a successful `Expression` statement appends to
the displayed output is never a `Thunk`. -/
theorem icypeas_c9_no_observable_thunk :
    (∀ (n : Nat) (v : Value) (s : InterpState) (v' : Value) (s' : InterpState),
        force n v s = (.Ok v', s') → v'.isThunk = false) ∧
    (∀ (n : Nat) (v : Value) (s : InterpState), v.isThunk = false → force n v s = (.Ok v, s)) ∧
    (∀ (n : Nat) (tk : Token) (s : InterpState) (v : Value) (s' : InterpState),
        evaluate n (.Identifier tk) s = (.Ok v, s') → v.isThunk = false) ∧
    (∀ (n : Nat) (e : Expression) (s : InterpState) (o : Outcome) (s' : InterpState),
        executeStmt n (.Expression e) s = (o, s') → o = .Ok .None →
        ∃ v, v.isThunk = false ∧ s'.output = s'.output.dropLast ++ [v]) :=
  ⟨force_ok_not_thunk, force_not_thunk_id, eval_identifier_not_thunk,
   exec_expression_output_not_thunk⟩

/-- C9, witness: `icypeas_c9_no_observable_thunk` applied to the
concrete thunk `Thunk(1, root)`, whose forcing yields `Integer(1)` — not
a thunk. -/
theorem icypeas_c9_witness :
    force 2 (.Thunk (.Literal (tokInt 1)) 0) initState = (.Ok (.Integer 1), initState) ∧
    (Value.Integer 1).isThunk = false :=
  ⟨rfl, icypeas_c9_no_observable_thunk.1 2 (.Thunk (.Literal (tokInt 1)) 0) initState
      (.Integer 1) initState rfl⟩

/-- C10: an `If` branch whose condition forces to a non-`Boolean` value
is silently skipped — no type error — exactly as a `Boolean(false)`
condition is (first two conjuncts land in the same continuation), and
`if 1 then 2 else 3` prints `Integer(3)`. -/
theorem icypeas_c10_nonbool_condition :
    (∀ (n : Nat) (c b : Expression) (rest : List (Expression × Expression)) (ow : Expression)
        (s s1 s2 : InterpState) (v w : Value),
      evaluate n c s = (.Ok v, s1) → force n v s1 = (.Ok w, s2) →
      (∀ bb : Bool, w ≠ .Boolean bb) →
      evalIf (n + 1) ((c, b) :: rest) ow s = evalIf n rest ow s2) ∧
    (∀ (n : Nat) (c b : Expression) (rest : List (Expression × Expression)) (ow : Expression)
        (s s1 s2 : InterpState) (v : Value),
      evaluate n c s = (.Ok v, s1) → force n v s1 = (.Ok (.Boolean false), s2) →
      evalIf (n + 1) ((c, b) :: rest) ow s = evalIf n rest ow s2) ∧
    (runTokens 100 progIfNonBool).1 = .Ok .None ∧
    (runTokens 100 progIfNonBool).2.output = [.Integer 3] :=
  ⟨fun n c b rest ow s s1 s2 v w h1 h2 hw =>
      evalIf_skip n c b rest ow s s1 s2 v w h1 h2 (hw true),
   fun n c b rest ow s s1 s2 v h1 h2 =>
      evalIf_skip n c b rest ow s s1 s2 v (.Boolean false) h1 h2
        (fun hc => Bool.noConfusion (Value.Boolean.inj hc)),
   rfl, rfl⟩

/-- C10, witness: `icypeas_c10_nonbool_condition` applied to the branch
whose condition forces to the non-`Boolean` value `Integer(1)`. -/
theorem icypeas_c10_witness :
    evaluate 1 (.Literal (tokInt 1)) initState = (.Ok (.Integer 1), initState) ∧
    evalIf 2 [(.Literal (tokInt 1), .Literal (tokInt 2))] (.Literal (tokInt 3)) initState =
      evalIf 1 [] (.Literal (tokInt 3)) initState :=
  ⟨rfl, icypeas_c10_nonbool_condition.1 1 (.Literal (tokInt 1)) (.Literal (tokInt 2)) []
      (.Literal (tokInt 3)) initState initState initState (.Integer 1) (.Integer 1) rfl rfl
      (fun _ h => Value.noConfusion h)⟩
